import Mathlib

set_option maxRecDepth 20000

/-!
Verification development for the playlist rewriting and merging engine of
mediaflow_proxy/routes/playlist_builder.py.

The Python code is shallowly embedded: each Python string primitive used by
the source (split with maxsplit, rsplit, strip, startswith, substring
containment, urllib percent quoting, urlparse, parse_qs, urlencode,
urlunparse, a restricted json.loads) is modelled as an executable Lean
function over lists of characters and byte (Nat) lists.  The rewriter state
machine, the multi-source aggregator, the downloader error handling and the
base-URL override extraction of the route handler are then direct
transcriptions of the Python control flow.
-/

/-! ### Python string primitives -/

/-- Whitespace characters removed by Python `str.strip()` (ASCII subset;
the source never feeds other whitespace to `strip`). -/
def pyWsChar (c : Char) : Bool :=
  c == ' ' || c == '\t' || c == '\n' || c == '\r' || c == '\x0b' || c == '\x0c'

/-- Python `s.split(c, 1)` on a one-character separator: the part before the
first occurrence, and (when the separator occurs) the remainder. -/
def splitOnceChar (c : Char) : List Char → List Char × Option (List Char)
  | [] => ([], none)
  | x :: t =>
    if x = c then ([], some t)
    else (x :: (splitOnceChar c t).1, (splitOnceChar c t).2)

/-- Python `s.split(c)` on a one-character separator (no maxsplit). -/
def splitOnChar (c : Char) : List Char → List (List Char)
  | [] => [[]]
  | x :: t =>
    match splitOnChar c t with
    | [] => [[]]
    | y :: ys => if x = c then [] :: y :: ys else (x :: y) :: ys

/-- Python `s.rsplit(c, 1)`: the part before the last occurrence, and the
part after it when the separator occurs. -/
def rsplitOnceChar (c : Char) (l : List Char) : List Char × Option (List Char) :=
  match splitOnceChar c l.reverse with
  | (_, none) => (l, none)
  | (a, some b) => (b.reverse, some a.reverse)

/-- Python substring containment `sub in s`, on character lists. -/
def listHasSub (sub : List Char) : List Char → Bool
  | [] => sub.isEmpty
  | x :: t => sub.isPrefixOf (x :: t) || listHasSub sub t

/-- Python `sub in s`. -/
def pyContains (s sub : String) : Bool := listHasSub sub.data s.data

/-- Python `s.startswith(p)`. -/
def pyStartswith (s p : String) : Bool := p.data.isPrefixOf s.data

/-- Python `str.strip()` on character lists. -/
def trimCharsL (l : List Char) : List Char :=
  ((l.dropWhile pyWsChar).reverse.dropWhile pyWsChar).reverse

/-- Python `str.strip()`. -/
def pyStrip (s : String) : String := String.mk (trimCharsL s.data)

/-- Python `s.rstrip(String.singleton (Char.ofNat 10))`: drop trailing newline characters. -/
def rstripNl (s : String) : String :=
  String.mk (s.data.reverse.dropWhile (· == '\n')).reverse

/-- Insertion-ordered dictionary update, as for a Python `dict`:
an existing key keeps its position and gets the new value, a new key is
appended at the end. -/
def upsert (st : List (String × String)) (k v : String) : List (String × String) :=
  if st.any (fun p => p.1 == k) then
    st.map (fun p => if p.1 == k then (p.1, v) else p)
  else st ++ [(k, v)]

/-! ### Bytes, UTF-8 and percent encoding (urllib.parse.quote / unquote) -/

/-- UTF-8 encoding of one character, as a list of byte values. -/
def charBytes (c : Char) : List Nat :=
  let n := c.toNat
  if n < 128 then [n]
  else if n < 2048 then [192 + n / 64, 128 + n % 64]
  else if n < 65536 then [224 + n / 4096, 128 + (n / 64) % 64, 128 + n % 64]
  else [240 + n / 262144, 128 + (n / 4096) % 64, 128 + (n / 64) % 64, 128 + n % 64]

/-- UTF-8 encoding of a character list. -/
def bytesOfChars (l : List Char) : List Nat :=
  l.foldr (fun c acc => charBytes c ++ acc) []

/-- UTF-8 encoding of a string (Python `s.encode()`). -/
def strToBytes (s : String) : List Nat := bytesOfChars s.data

/-- Bytes never percent-encoded by `urllib.parse.quote`
(letters, digits, and the characters underscore dot dash tilde). -/
def isUnreservedByte (b : Nat) : Bool :=
  (decide (65 ≤ b) && decide (b ≤ 90)) || (decide (97 ≤ b) && decide (b ≤ 122)) ||
  (decide (48 ≤ b) && decide (b ≤ 57)) || b == 45 || b == 46 || b == 95 || b == 126

/-- Uppercase hexadecimal digit character, as produced by `quote`. -/
def hexDigitChar (n : Nat) : Char := Char.ofNat (if n < 10 then 48 + n else 55 + n)

/-- Encoding of one byte by `quote`: kept literally when unreserved or in the
safe set, else a percent escape. -/
def encByteChars (safe : List Nat) (b : Nat) : List Char :=
  if isUnreservedByte b || safe.contains b then [Char.ofNat b]
  else ['%', hexDigitChar (b / 16), hexDigitChar (b % 16)]

/-- `urllib.parse.quote` on a byte list. -/
def percentEncodeBytes (safe : List Nat) (bs : List Nat) : List Char :=
  bs.foldr (fun b acc => encByteChars safe b ++ acc) []

/-- `urllib.parse.quote(s, safe)` with `safe` given as byte values.
The source uses `safe` equal to the empty set or the single byte 47. -/
def percentEncode (safe : List Nat) (s : String) : String :=
  String.mk (percentEncodeBytes safe (strToBytes s))

/-- Value of a hexadecimal digit character, accepted in both cases as by
`urllib.parse.unquote`. -/
def hexVal (c : Char) : Option Nat :=
  if 48 ≤ c.toNat ∧ c.toNat ≤ 57 then some (c.toNat - 48)
  else if 65 ≤ c.toNat ∧ c.toNat ≤ 70 then some (c.toNat - 55)
  else if 97 ≤ c.toNat ∧ c.toNat ≤ 102 then some (c.toNat - 87)
  else none

/-- Fuel-driven worker for `urllib.parse.unquote` down to the byte level:
percent escapes become bytes, other characters contribute their UTF-8
bytes, an invalid escape keeps the percent sign literally.  Each step
consumes at least one character, so fuel at least the input length is
exact. -/
def percentDecodeAux : Nat → List Char → List Nat
  | 0, _ => []
  | _, [] => []
  | fuel + 1, c :: rest =>
    if c = '%' then
      match rest with
      | h1 :: h2 :: rest2 =>
        match hexVal h1, hexVal h2 with
        | some a, some b => (16 * a + b) :: percentDecodeAux fuel rest2
        | _, _ => charBytes '%' ++ percentDecodeAux fuel rest
      | _ => charBytes '%' ++ percentDecodeAux fuel rest
    else charBytes c ++ percentDecodeAux fuel rest

/-- `urllib.parse.unquote` down to the byte level. -/
def percentDecodeChars (l : List Char) : List Nat := percentDecodeAux l.length l

/-- Decode one codepoint, replacing invalid codepoints by U+FFFD as Python
utf-8 decoding with errors set to replace does. -/
def chrOf (n : Nat) : Char :=
  if n.isValidChar then Char.ofNat n else Char.ofNat 65533

/-- Fuel-driven UTF-8 decoder (best effort model of Python bytes.decode with
errors set to replace; exercised only on ASCII bytes in this development). -/
def utf8DecodeAux : Nat → List Nat → List Char
  | 0, _ => []
  | _, [] => []
  | fuel + 1, b :: rest =>
    if b < 128 then chrOf b :: utf8DecodeAux fuel rest
    else if 192 ≤ b ∧ b ≤ 223 then
      match rest with
      | b2 :: r2 =>
        if 128 ≤ b2 ∧ b2 < 192 then
          chrOf ((b - 192) * 64 + (b2 - 128)) :: utf8DecodeAux fuel r2
        else chrOf 65533 :: utf8DecodeAux fuel rest
      | [] => [chrOf 65533]
    else if 224 ≤ b ∧ b ≤ 239 then
      match rest with
      | b2 :: b3 :: r3 =>
        if (128 ≤ b2 ∧ b2 < 192) ∧ (128 ≤ b3 ∧ b3 < 192) then
          chrOf ((b - 224) * 4096 + (b2 - 128) * 64 + (b3 - 128)) :: utf8DecodeAux fuel r3
        else chrOf 65533 :: utf8DecodeAux fuel rest
      | _ => [chrOf 65533]
    else if 240 ≤ b ∧ b ≤ 247 then
      match rest with
      | b2 :: b3 :: b4 :: r4 =>
        if (128 ≤ b2 ∧ b2 < 192) ∧ (128 ≤ b3 ∧ b3 < 192) ∧ (128 ≤ b4 ∧ b4 < 192) then
          chrOf ((b - 240) * 262144 + (b2 - 128) * 4096 + (b3 - 128) * 64 + (b4 - 128)) ::
            utf8DecodeAux fuel r4
        else chrOf 65533 :: utf8DecodeAux fuel rest
      | _ => [chrOf 65533]
    else chrOf 65533 :: utf8DecodeAux fuel rest

/-- UTF-8 decode a byte list into a string. -/
def utf8Decode (bs : List Nat) : String :=
  String.mk (utf8DecodeAux (bs.length + 1) bs)

/-- Python `urllib.parse.unquote` on strings. -/
def unquoteStr (s : String) : String := utf8Decode (percentDecodeChars s.data)

/-! ### Restricted JSON parsing for the EXTHTTP directive

The source calls `json.loads` and then keeps the result only when it is a
flat object whose keys and values are all strings; every other outcome
(parse error, non-object value, non-string member) resets the pending
header set to the empty dictionary.  The model below therefore parses
exactly flat string-to-string objects and answers `none` for everything
else, which induces the same state transition. -/

/-- JSON whitespace. -/
def jWsChar (c : Char) : Bool := c == ' ' || c == '\t' || c == '\n' || c == '\r'

/-- Drop leading JSON whitespace. -/
def skipJWs (l : List Char) : List Char := l.dropWhile jWsChar

/-- Parse a JSON string literal (after its opening quote has been consumed),
returning its characters and the remaining input. -/
def parseJStringAux : Nat → List Char → List Char → Option (List Char × List Char)
  | 0, _, _ => none
  | _, _, [] => none
  | fuel + 1, acc, c :: rest =>
    if c = '"' then some (acc.reverse, rest)
    else if c = '\\' then
      match rest with
      | e :: r2 =>
        if e = '"' then parseJStringAux fuel ('"' :: acc) r2
        else if e = '\\' then parseJStringAux fuel ('\\' :: acc) r2
        else if e = '/' then parseJStringAux fuel ('/' :: acc) r2
        else if e = 'n' then parseJStringAux fuel ('\n' :: acc) r2
        else if e = 't' then parseJStringAux fuel ('\t' :: acc) r2
        else if e = 'r' then parseJStringAux fuel ('\r' :: acc) r2
        else if e = 'b' then parseJStringAux fuel (Char.ofNat 8 :: acc) r2
        else if e = 'f' then parseJStringAux fuel (Char.ofNat 12 :: acc) r2
        else if e = 'u' then
          match r2 with
          | d1 :: d2 :: d3 :: d4 :: r3 =>
            match hexVal d1, hexVal d2, hexVal d3, hexVal d4 with
            | some a, some b, some cc, some d =>
              parseJStringAux fuel (chrOf (4096 * a + 256 * b + 16 * cc + d) :: acc) r3
            | _, _, _, _ => none
          | _ => none
        else none
      | [] => none
    else if c.toNat < 32 then none
    else parseJStringAux fuel (c :: acc) rest

/-- Parse the members of a flat JSON object after its opening brace,
accumulating into a Python-dict style association list. -/
def parseJMembers : Nat → List (String × String) → List Char →
    Option (List (String × String) × List Char)
  | 0, _, _ => none
  | fuel + 1, acc, l =>
    match skipJWs l with
    | '"' :: r1 =>
      match parseJStringAux (r1.length + 1) [] r1 with
      | some (k, r2) =>
        match skipJWs r2 with
        | ':' :: r3 =>
          match skipJWs r3 with
          | '"' :: r4 =>
            match parseJStringAux (r4.length + 1) [] r4 with
            | some (v, r5) =>
              let acc2 := upsert acc (String.mk k) (String.mk v)
              match skipJWs r5 with
              | ',' :: r6 => parseJMembers fuel acc2 r6
              | '\x7d' :: r6 => some (acc2, r6)
              | _ => none
            | none => none
          | _ => none
        | _ => none
      | none => none
    | _ => none

/-- Model of `json.loads` restricted to flat string-to-string objects:
`some` exactly when the whole input is such an object, `none` otherwise. -/
def parseJsonFlat (s : String) : Option (List (String × String)) :=
  match skipJWs s.data with
  | '\x7b' :: r1 =>
    match skipJWs r1 with
    | '\x7d' :: r2 => if (skipJWs r2).isEmpty then some [] else none
    | _ =>
      match parseJMembers (r1.length + 1) [] r1 with
      | some (d, rest) => if (skipJWs rest).isEmpty then some d else none
      | none => none
  | _ => none

/-! ### urlparse, parse_qs, urlencode, urlunparse -/

/-- Characters allowed in a URL scheme by `urllib.parse`. -/
def schemeCharB (c : Char) : Bool :=
  c.isAlpha || c.isDigit || c == '+' || c == '-' || c == '.'

/-- Result of `urllib.parse.urlparse`. -/
structure UrlParts where
  scheme : String
  netloc : String
  path : String
  params : String
  query : String
  fragment : String
deriving Repr, DecidableEq

/-- Model of `urllib.parse.urlsplit` (without params splitting).  Tab,
carriage return and line feed are removed from the input as the library
does; the leading control-character strip is omitted because the rewriter
always passes an already stripped line. -/
def urlsplitModel (url : String) : String × String × String × String × String :=
  let l := url.data.filter (fun c => !(c == '\t' || c == '\r' || c == '\n'))
  let schemeRest : List Char × List Char :=
    match splitOnceChar ':' l with
    | (before, some after) =>
      if !before.isEmpty &&
          (match before with | c :: _ => c.isAlpha | [] => false) &&
          before.all schemeCharB
      then (before.map Char.toLower, after) else ([], l)
    | (_, none) => ([], l)
  let netlocRest : List Char × List Char :=
    if ['/', '/'].isPrefixOf schemeRest.2 then
      let r := schemeRest.2.drop 2
      (r.takeWhile (fun c => !(c == '/' || c == '?' || c == '#')),
       r.dropWhile (fun c => !(c == '/' || c == '?' || c == '#')))
    else ([], schemeRest.2)
  let restFragment : List Char × List Char :=
    match splitOnceChar '#' netlocRest.2 with
    | (a, some b) => (a, b)
    | (a, none) => (a, [])
  let pathQuery : List Char × List Char :=
    match splitOnceChar '?' restFragment.1 with
    | (a, some b) => (a, b)
    | (a, none) => (a, [])
  (String.mk schemeRest.1, String.mk netlocRest.1, String.mk pathQuery.1,
   String.mk pathQuery.2, String.mk restFragment.2)

/-- Split `;params` from the last path segment, as `urlparse` does on top of
`urlsplit`. -/
def splitParamsModel (path : String) : String × String :=
  let l := path.data
  if pyContains path "/" then
    match rsplitOnceChar '/' l with
    | (before, some lastSeg) =>
      match splitOnceChar ';' lastSeg with
      | (segA, some segB) => (String.mk (before ++ '/' :: segA), String.mk segB)
      | (_, none) => (path, "")
    | (_, none) => (path, "")
  else
    match splitOnceChar ';' l with
    | (a, some b) => (String.mk a, String.mk b)
    | (_, none) => (path, "")

/-- Model of `urllib.parse.urlparse`. -/
def urlparseModel (url : String) : UrlParts :=
  let (scheme, netloc, path0, query, fragment) := urlsplitModel url
  let (path, prms) := splitParamsModel path0
  ⟨scheme, netloc, path, prms, query, fragment⟩

/-- Model of `urllib.parse.urlunparse` applied to six components. -/
def urlunparseModel (scheme netloc path prms query fragment : String) : String :=
  let url1 := if prms == "" then path else path ++ ";" ++ prms
  let url2 :=
    if netloc != "" || pyStartswith url1 "//" then
      "//" ++ netloc ++
        (if url1 != "" && !pyStartswith url1 "/" then "/" ++ url1 else url1)
    else url1
  let url3 := if scheme != "" then scheme ++ ":" ++ url2 else url2
  let url4 := if query != "" then url3 ++ "?" ++ query else url3
  if fragment != "" then url4 ++ "#" ++ fragment else url4

/-- Python `s.replace` of plus signs by spaces, used by `parse_qsl`. -/
def plusToSpaceL (l : List Char) : List Char :=
  l.map (fun c => if c == '+' then ' ' else c)

/-- One `name=value` pair of `parse_qsl` with `keep_blank_values=False`:
pairs without an equals sign, empty pairs and pairs with an empty value are
skipped; names and values have plus signs replaced and are unquoted. -/
def qslPair (nv : List Char) : Option (String × String) :=
  if nv.isEmpty then none
  else
    match splitOnceChar '=' nv with
    | (_, none) => none
    | (n, some v) =>
      if v.isEmpty then none
      else some (unquoteStr (String.mk (plusToSpaceL n)),
                 unquoteStr (String.mk (plusToSpaceL v)))

/-- Model of `urllib.parse.parse_qsl` with default arguments. -/
def parseQsl (qs : String) : List (String × String) :=
  (splitOnChar '&' qs.data).filterMap qslPair

/-- Group `parse_qsl` pairs into the insertion-ordered multi-dict built by
`parse_qs`. -/
def groupPairs (ps : List (String × String)) : List (String × List String) :=
  ps.foldl
    (fun acc p =>
      if acc.any (fun kv => kv.1 == p.1) then
        acc.map (fun kv => if kv.1 == p.1 then (kv.1, kv.2 ++ [p.2]) else kv)
      else acc ++ [(p.1, [p.2])])
    []

/-- Model of `urllib.parse.quote_plus(s, safe=blank)`. -/
def quotePlus (s : String) : String :=
  if pyContains s " " then
    String.mk ((percentEncode [32] s).data.map (fun c => if c == ' ' then '+' else c))
  else percentEncode [] s

/-- Model of `urllib.parse.urlencode(d, doseq=True)` on the grouped
multi-dict. -/
def urlencodeSeq (qp : List (String × List String)) : String :=
  String.intercalate "&"
    ((qp.map (fun kv => kv.2.map (fun v => quotePlus kv.1 ++ "=" ++ quotePlus v))).flatten)

/-! ### The rewriter state machine (rewrite_m3u_links_streaming) -/

/-- Update of the pending header dictionary for one `#EXTVLCOPT:` line, as
in the source: an `http-header` option with a colon upserts the split
header, any other `http-` option upserts the suffix of its key, and every
other shape leaves the dictionary unchanged (the try block in the source
cannot raise on string input). -/
def vlcUpdate (st : List (String × String)) (logical : String) : List (String × String) :=
  let optionStr := (splitOnceChar ':' logical.data).2.getD []
  if listHasSub ['='] optionStr then
    match splitOnceChar '=' optionStr with
    | (k0, some v0) =>
      let keyVlc := trimCharsL k0
      let valueVlc := trimCharsL v0
      if keyVlc = "http-header".data ∧ listHasSub [':'] valueVlc then
        match splitOnceChar ':' valueVlc with
        | (hk, some hv) =>
          upsert st (String.mk (trimCharsL hk)) (String.mk (trimCharsL hv))
        | (_, none) => st
      else if "http-".data.isPrefixOf keyVlc then
        upsert st (String.mk (keyVlc.drop 5)) (String.mk valueVlc)
      else st
    | (_, none) => st
  else st

/-- Update of the pending header dictionary for one `#EXTHTTP:` line: a
flat string-to-string JSON object replaces the dictionary, everything else
resets it to empty. -/
def httpUpdate (logical : String) : List (String × String) :=
  let jsonStr := trimCharsL ((splitOnceChar ':' logical.data).2.getD [])
  match parseJsonFlat (String.mk jsonStr) with
  | some d => d
  | none => []

/-- The HLS manifest proxy route. -/
def hlsRoute (baseUrl logical : String) : String :=
  baseUrl ++ "/proxy/hls/manifest.m3u8?d=" ++ percentEncode [] logical

/-- The extractor route used for the vixsrc.to provider. -/
def vixRoute (baseUrl logical : String) : String :=
  baseUrl ++ "/extractor/video?host=VixCloud&redirect_stream=true&d=" ++
    percentEncode [] logical ++ "&max_res=true&no_proxy=true"

/-- The DRM parameters surviving removal of `key_id` and `key`. -/
def cleanDrm (qp : List (String × List String)) : List (String × List String) :=
  qp.filter (fun kv => !(kv.1 == "key_id" || kv.1 == "key"))

/-- First value of a query parameter in the grouped multi-dict, as
`query_params.get(k, [None])[0]`. -/
def firstParam (qp : List (String × List String)) (k : String) : Option String :=
  match qp.lookup k with
  | some (v :: _) => some v
  | _ => none

/-- The DASH (`.mpd`) rewrite of the source: parse the URL, group the query
parameters, take the first `key_id` and `key`, drop both keys from the
query, rebuild and percent-encode the URL, then append the two extracted
values (verbatim) when truthy. -/
def mpdRewrite (baseUrl logical : String) : String :=
  let P := urlparseModel logical
  let qp := groupPairs (parseQsl P.query)
  let keyId := firstParam qp "key_id"
  let key := firstParam qp "key"
  let clean := cleanDrm qp
  let cleanQuery := if clean.isEmpty then "" else urlencodeSeq clean
  let cleanUrl := urlunparseModel P.scheme P.netloc P.path P.params cleanQuery P.fragment
  let u0 := baseUrl ++ "/proxy/mpd/manifest.m3u8?d=" ++ percentEncode [] cleanUrl
  let u1 := match keyId with
    | some v => if v == "" then u0 else u0 ++ "&key_id=" ++ v
    | none => u0
  match key with
  | some v => if v == "" then u1 else u1 ++ "&key=" ++ v
  | none => u1

/-- Route classification of a playable line, in the exact order of the
source in rewrite_m3u_links_streaming. -/
def routeFor (baseUrl logical : String) : String :=
  if pyContains logical "pluto.tv" then logical
  else if pyContains logical "vavoo.to" then hlsRoute baseUrl logical
  else if pyContains logical "vixsrc.to" then vixRoute baseUrl logical
  else if pyContains logical ".m3u8" then hlsRoute baseUrl logical
  else if pyContains logical ".mpd" then mpdRewrite baseUrl logical
  else if pyContains logical ".php" then hlsRoute baseUrl logical
  else hlsRoute baseUrl logical

/-- The header query parameters appended for the pending header dictionary,
one `&h_name=value` per entry with name and value quoted with slash safe. -/
def headerSuffix (hs : List (String × String)) : String :=
  String.join (hs.map (fun p => "&h_" ++ percentEncode [47] p.1 ++ "=" ++ percentEncode [47] p.2))

/-- Tail of the playable branch: append pending header parameters (clearing
the dictionary when it was nonempty) and then the api_password when truthy,
and terminate the line. -/
def finishPlayable (pu0 : String) (st : List (String × String)) (pw : Option String) :
    String × List (String × String) :=
  let pr := if st.isEmpty then (pu0, st) else (pu0 ++ headerSuffix st, ([] : List (String × String)))
  let pu2 := match pw with
    | some p => if p == "" then pr.1 else pr.1 ++ "&api_password=" ++ p
    | none => pr.1
  (pu2 ++ "\n", pr.2)

/-- Playable-line test of the source: nonempty after stripping, not a
comment, and containing an absolute URL scheme marker. -/
def isPlayableLineB (logical : String) : Bool :=
  !(logical == "") && !(pyStartswith logical "#") &&
    (pyContains logical "http://" || pyContains logical "https://")

/-- One iteration of rewrite_m3u_links_streaming: maps an input line and
the pending header dictionary to the emitted line and the new dictionary. -/
def processLine (st : List (String × String)) (lineWithNl baseUrl : String)
    (apiPassword : Option String) : String × List (String × String) :=
  let logical := pyStrip (rstripNl lineWithNl)
  if pyStartswith logical "#EXTVLCOPT:" then (lineWithNl, vlcUpdate st logical)
  else if pyStartswith logical "#EXTHTTP:" then (lineWithNl, httpUpdate logical)
  else if isPlayableLineB logical then finishPlayable (routeFor baseUrl logical) st apiPassword
  else (lineWithNl, st)

/-- rewrite_m3u_links_streaming over a list of lines, threading the pending
header dictionary and emitting exactly one output line per input line. -/
def rewriteLines (st : List (String × String)) (ls : List String) (baseUrl : String)
    (apiPassword : Option String) : List String :=
  match ls with
  | [] => []
  | l :: rest =>
    let r := processLine st l baseUrl apiPassword
    r.1 :: rewriteLines r.2 rest baseUrl apiPassword

/-! ### Source fetcher (async_download_m3u_playlist) -/

/-- Abstract outcome of the HTTP transport for one playlist fetch: the
stripped lines streamed by `aiter_lines`, a connect error (DNS or network),
or any other raised exception (timeouts, HTTP status errors, decode
errors). -/
inductive Transport where
  | ok (lines : List String)
  | connectError (msg : String)
  | otherError (msg : String)
deriving Repr, DecidableEq

/-- Structured failure of the fetcher: the HTTPException it raises on
connect errors, or any other exception re-raised unchanged. -/
inductive FetchError where
  | httpError (status : Nat) (detail : String)
  | propagated (msg : String)
deriving Repr, DecidableEq

/-- Per-line decoding step of the fetcher: a nonempty decoded line gets a
newline appended, an empty one is appended as the empty string. -/
def decodeLine (l : String) : String := if l == "" then "" else l ++ "\n"

/-- Model of async_download_m3u_playlist: on transport success the complete
decoded line list, on a connect error the 502 HTTPException with the
message built by the source, on any other exception that exception
re-raised. -/
def async_download_m3u_playlist (url : String) : Transport → Except FetchError (List String)
  | .ok ls => .ok (ls.map decodeLine)
  | .connectError _ =>
    .error (.httpError 502 ("Unable to connect to playlist source (DNS or network issue): " ++ url))
  | .otherError m => .error (.propagated m)

/-- Whether a fetch outcome is a success. -/
def fetchIsOk (r : Except FetchError (List String)) : Bool :=
  match r with
  | .ok _ => true
  | .error _ => false

/-- Cumulative size of the streamed lines, the measure an oversize budget
would be enforced against (character count, which equals the byte count for
ASCII playlists). -/
def sumBytes (ls : List String) : Nat := (ls.map String.length).sum

/-! ### Aggregator (async_generate_combined_playlist) -/

/-- Marker test of the merge loop: the stripped line starts with
the marker tag. -/
def isExtm3uB (l : String) : Bool := pyStartswith (pyStrip l) "#EXTM3U"

/-- Inner merge loop over one rewritten segment, threading the
first_playlist_header_handled flag and the first_line_of_this_segment
flag; returns the emitted lines and the updated handled flag. -/
def mergeLines (handled firstOfSeg : Bool) : List String → List String × Bool
  | [] => ([], handled)
  | l :: ls =>
    if handled then
      if firstOfSeg && isExtm3uB l then mergeLines handled false ls
      else
        let r := mergeLines handled false ls
        (l :: r.1, r.2)
    else
      let r := mergeLines (isExtm3uB l) false ls
      (l :: r.1, r.2)

/-- The synthetic comment line emitted for a failed source. -/
def errLine (r : String × Except String (List String)) : String :=
  match r.2 with
  | .error m => "# ERROR processing playlist " ++ r.1 ++ ": " ++ m ++ "\n"
  | .ok _ => ""

/-- Main loop of async_generate_combined_playlist over the gathered
per-source results (paired with their playlist URLs): a failed source
contributes one error comment line, a successful one is rewritten with a
fresh pending header dictionary and merged with marker deduplication. -/
def combineGo (handled : Bool) (baseUrl : String) (apiPassword : Option String) :
    List (String × Except String (List String)) → List String
  | [] => []
  | r :: rest =>
    match r.2 with
    | .error _ => errLine r :: combineGo handled baseUrl apiPassword rest
    | .ok lines =>
      let rw := rewriteLines [] lines baseUrl apiPassword
      let m := mergeLines handled true rw
      let handled2 := if !rw.isEmpty && !m.2 then true else m.2
      m.1 ++ combineGo handled2 baseUrl apiPassword rest

/-- Model of async_generate_combined_playlist given the per-source fetch
results in request order. -/
def async_generate_combined_playlist (results : List (String × Except String (List String)))
    (baseUrl : String) (apiPassword : Option String) : List String :=
  combineGo false baseUrl apiPassword results

/-! ### Base URL override extraction of proxy_handler -/

/-- Model of the base-URL override block of proxy_handler (lines 241 to 248
of the source): when the first playlist definition contains an ampersand,
its first part contains a colon and does not start with http, the part
before the last colon is taken and used only when it does start with
http. -/
def extractBaseUrl (defs : List String) (dflt : String) : String :=
  match defs with
  | [] => dflt
  | d0 :: _ =>
    if pyContains d0 "&" then
      let p0 := String.mk (splitOnceChar '&' d0.data).1
      if pyContains p0 ":" && !pyStartswith p0 "http" then
        let bup := String.mk (rsplitOnceChar ':' p0.data).1
        if pyStartswith bup "http" then bup else dflt
      else dflt
    else dflt

/-- Whether a gathered per-source result is an exception. -/
def exceptIsErr (r : Except String (List String)) : Bool :=
  match r with
  | .error _ => true
  | .ok _ => false

/-! ### Helper lemmas -/

/-- Filtering with a predicate leaves only elements satisfying it. -/
theorem filter_all_self {α : Type} (p : α → Bool) : ∀ l : List α, (l.filter p).all p = true
  | [] => rfl
  | a :: t => by
    by_cases h : p a = true <;>
      simp [List.filter_cons, h, filter_all_self p t]

/-- Specification of `splitOnceChar` in the found case. -/
theorem splitOnceChar_some (c : Char) :
    ∀ (l a b : List Char), splitOnceChar c l = (a, some b) → l = a ++ c :: b := by
  intro l
  induction l with
  | nil => intro a b h; simp [splitOnceChar] at h
  | cons x t ih =>
    intro a b h
    by_cases hx : x = c
    · simp [splitOnceChar, hx] at h
      obtain ⟨ha, hb⟩ := h
      subst ha; subst hb; subst hx; rfl
    · cases hsp : splitOnceChar c t with
      | mk a2 b2 =>
        simp [splitOnceChar, hx, hsp] at h
        obtain ⟨ha, hb⟩ := h
        subst hb
        have ht := ih a2 b hsp
        subst ha
        rw [List.cons_append]
        exact congrArg (x :: ·) ht

/-- A prefix of a list is a prefix of any extension of it. -/
theorem isPrefixOf_ext (p l t : List Char) (h : p.isPrefixOf l = true) :
    p.isPrefixOf (l ++ t) = true := by
  simp only [List.isPrefixOf_iff_prefix] at h ⊢
  exact h.trans (List.prefix_append l t)

/-- The part before the last separator occurrence is an initial segment of
the whole input. -/
theorem rsplit_fst_initial (c : Char) (l : List Char) : ∃ t, (rsplitOnceChar c l).1 ++ t = l := by
  unfold rsplitOnceChar
  cases hs : splitOnceChar c l.reverse with
  | mk a ob =>
    cases ob with
    | none => exact ⟨[], by simp⟩
    | some b =>
      have hrev : l.reverse = a ++ c :: b := splitOnceChar_some c l.reverse a b hs
      refine ⟨c :: a.reverse, ?_⟩
      have hl : l = b.reverse ++ c :: a.reverse := by
        have h2 := congrArg List.reverse hrev
        simpa [List.reverse_append] using h2
      simp [hl]

/-- A line starting with a longer tag starts with the hash character. -/
theorem hash_of_tag : ∀ (t l : List Char), (('#' :: t).isPrefixOf l) = true → (['#'].isPrefixOf l) = true := by
  intro t l h
  cases l with
  | nil => simp [List.isPrefixOf] at h
  | cons b bs =>
    simp [List.isPrefixOf] at h ⊢
    exact h.1

/-- A line that does not start with the hash character starts with neither
directive tag. -/
theorem no_hash_no_tags (s : String) (h : pyStartswith s "#" = false) :
    pyStartswith s "#EXTVLCOPT:" = false ∧ pyStartswith s "#EXTHTTP:" = false := by
  constructor
  · cases hv : pyStartswith s "#EXTVLCOPT:" with
    | false => rfl
    | true =>
      exfalso
      have := hash_of_tag "EXTVLCOPT:".data s.data hv
      simp [pyStartswith] at h
      rw [h] at this
      exact Bool.false_ne_true this
  · cases hv : pyStartswith s "#EXTHTTP:" with
    | false => rfl
    | true =>
      exfalso
      have := hash_of_tag "EXTHTTP:".data s.data hv
      simp [pyStartswith] at h
      rw [h] at this
      exact Bool.false_ne_true this

/-- The pending header dictionary is always empty after the playable-line
tail runs. -/
theorem finishPlayable_snd (pu0 : String) (st : List (String × String)) (pw : Option String) :
    (finishPlayable pu0 st pw).2 = [] := by
  cases st <;> cases pw <;> simp [finishPlayable]

/-! ### Percent encode then decode is the identity on byte lists -/

/-- Unreserved bytes are ASCII and distinct from the percent sign. -/
theorem unres_ascii (b : Nat) (h : isUnreservedByte b = true) : b < 128 ∧ b ≠ 37 := by
  unfold isUnreservedByte at h
  simp only [Bool.or_eq_true, Bool.and_eq_true, decide_eq_true_eq, beq_iff_eq] at h
  omega

/-- Character round trip for ASCII byte values. -/
theorem toNat_ofNat_ascii : ∀ b, b < 128 → (Char.ofNat b).toNat = b := by decide

/-- UTF-8 encoding of an ASCII character is its single byte. -/
theorem charBytes_ofNat_ascii (b : Nat) (h : b < 128) : charBytes (Char.ofNat b) = [b] := by
  simp [charBytes, toNat_ofNat_ascii b h, h]

/-- An unreserved byte never maps to the percent sign. -/
theorem ofNat_ne_percent (b : Nat) (h : b < 128) (hne : b ≠ 37) : Char.ofNat b ≠ '%' := by
  intro heq
  apply hne
  have := congrArg Char.toNat heq
  rw [toNat_ofNat_ascii b h] at this
  simpa using this

/-- The hexadecimal digit characters produced by the encoder decode back. -/
theorem hexVal_hexDigitChar : ∀ n, n < 16 → hexVal (hexDigitChar n) = some n := by decide

/-- Unfolding of the fuelled percent decoder at a non-percent character. -/
theorem percentDecodeAux_cons_ne (f : Nat) (c : Char) (rest : List Char) (h : ¬(c = '%')) :
    percentDecodeAux (f + 1) (c :: rest) = charBytes c ++ percentDecodeAux f rest := by
  simp [percentDecodeAux, h]

/-- Unfolding of the fuelled percent decoder at a valid escape. -/
theorem percentDecodeAux_escape (f : Nat) (h1 h2 : Char) (rest : List Char) (a bv : Nat)
    (ha : hexVal h1 = some a) (hb : hexVal h2 = some bv) :
    percentDecodeAux (f + 1) ('%' :: h1 :: h2 :: rest) = (16 * a + bv) :: percentDecodeAux f rest := by
  simp [percentDecodeAux, ha, hb]

/-- With fuel at least the number of encoded bytes, decoding the output of
the encoder recovers the input bytes exactly. -/
theorem decodeAux_encode : ∀ (bs : List Nat) (fuel : Nat), (∀ b ∈ bs, b < 256) →
    bs.length ≤ fuel → percentDecodeAux fuel (percentEncodeBytes [] bs) = bs := by
  intro bs
  induction bs with
  | nil =>
    intro fuel _ _
    show percentDecodeAux fuel [] = []
    cases fuel <;> rfl
  | cons b t ih =>
    intro fuel h hlen
    cases fuel with
    | zero => simp at hlen
    | succ f =>
      have hb : b < 256 := h b (List.mem_cons_self _ _)
      have ht : ∀ x ∈ t, x < 256 := fun x hx => h x (List.mem_cons_of_mem _ hx)
      have hf : t.length ≤ f := by simp at hlen; omega
      have hstep : percentEncodeBytes [] (b :: t) = encByteChars [] b ++ percentEncodeBytes [] t := by
        simp [percentEncodeBytes]
      rw [hstep]
      by_cases hu : isUnreservedByte b = true
      · obtain ⟨h128, h37⟩ := unres_ascii b hu
        have henc : encByteChars [] b = [Char.ofNat b] := by simp [encByteChars, hu]
        rw [henc, List.singleton_append,
          percentDecodeAux_cons_ne _ _ _ (ofNat_ne_percent b h128 h37),
          charBytes_ofNat_ascii b h128, ih f ht hf]
        rfl
      · have henc : encByteChars [] b = ['%', hexDigitChar (b / 16), hexDigitChar (b % 16)] := by
          simp [encByteChars, hu]
        have hd1 : b / 16 < 16 := by omega
        have hd2 : b % 16 < 16 := by omega
        rw [henc]
        show percentDecodeAux (f + 1) ('%' :: hexDigitChar (b / 16) :: hexDigitChar (b % 16) ::
          percentEncodeBytes [] t) = b :: t
        rw [percentDecodeAux_escape _ _ _ _ _ _ (hexVal_hexDigitChar _ hd1)
          (hexVal_hexDigitChar _ hd2), ih f ht hf]
        have : 16 * (b / 16) + b % 16 = b := by omega
        rw [this]

/-- The encoder emits at least one character per byte. -/
theorem encLen_ge (bs : List Nat) : bs.length ≤ (percentEncodeBytes [] bs).length := by
  induction bs with
  | nil => simp [percentEncodeBytes]
  | cons b t ih =>
    have hstep : percentEncodeBytes [] (b :: t) = encByteChars [] b ++ percentEncodeBytes [] t := by
      simp [percentEncodeBytes]
    have hne : 1 ≤ (encByteChars [] b).length := by
      unfold encByteChars; split <;> simp
    rw [hstep]
    simp only [List.length_append, List.length_cons]
    omega

/-- Every codepoint is below the Unicode bound. -/
theorem char_toNat_bound (c : Char) : c.toNat < 1114112 := by
  have hv := c.valid
  rcases hv with h | ⟨_, h2⟩
  · exact Nat.lt_trans h (by norm_num)
  · exact h2

/-- UTF-8 encoding produces only byte values. -/
theorem charBytes_lt256 (c : Char) : ∀ b ∈ charBytes c, b < 256 := by
  intro b hb
  have hbound := char_toNat_bound c
  simp only [charBytes] at hb
  by_cases h1 : c.toNat < 128
  · simp [h1] at hb; omega
  · by_cases h2 : c.toNat < 2048
    · simp [h1, h2] at hb
      have : c.toNat / 64 < 32 := by omega
      have : c.toNat % 64 < 64 := by omega
      omega
    · by_cases h3 : c.toNat < 65536
      · simp [h1, h2, h3] at hb
        have : c.toNat / 4096 < 16 := by omega
        have : (c.toNat / 64) % 64 < 64 := by omega
        have : c.toNat % 64 < 64 := by omega
        omega
      · simp [h1, h2, h3] at hb
        have : c.toNat / 262144 < 5 := by omega
        have : (c.toNat / 4096) % 64 < 64 := by omega
        have : (c.toNat / 64) % 64 < 64 := by omega
        have : c.toNat % 64 < 64 := by omega
        omega

/-- The UTF-8 encoding of any character list consists of byte values. -/
theorem bytesOfChars_lt256 : ∀ l : List Char, ∀ b ∈ bytesOfChars l, b < 256 := by
  intro l
  induction l with
  | nil => intro b hb; simp [bytesOfChars] at hb
  | cons c t ih =>
    intro b hb
    have : bytesOfChars (c :: t) = charBytes c ++ bytesOfChars t := by simp [bytesOfChars]
    rw [this] at hb
    rcases List.mem_append.mp hb with h | h
    · exact charBytes_lt256 c b h
    · exact ih b h

/-- Percent-decoding the percent-encoding of a string recovers exactly the
UTF-8 bytes of the string. -/
theorem percent_round (s : String) :
    percentDecodeChars (percentEncode [] s).data = strToBytes s := by
  show percentDecodeAux (percentEncodeBytes [] (strToBytes s)).length
    (percentEncodeBytes [] (strToBytes s)) = strToBytes s
  exact decodeAux_encode (strToBytes s) _ (bytesOfChars_lt256 s.data) (encLen_ge (strToBytes s))

/-- When every gathered result is an exception, the merge loop emits exactly
the error comment lines, one per source, in order, whatever the handled
flag. -/
theorem combineGo_all_err (b : String) (pw : Option String) :
    ∀ (rs : List (String × Except String (List String))) (handled : Bool),
      (∀ r ∈ rs, exceptIsErr r.2 = true) → combineGo handled b pw rs = rs.map errLine := by
  intro rs
  induction rs with
  | nil => intro handled _; rfl
  | cons r rest ih =>
    intro handled h
    cases hr : r.2 with
    | error m =>
      have hrest : ∀ x ∈ rest, exceptIsErr x.2 = true :=
        fun x hx => h x (List.mem_cons_of_mem _ hx)
      simp [combineGo, hr, errLine, ih handled hrest]
    | ok ls =>
      exfalso
      have hm := h r (List.mem_cons_self _ _)
      rw [hr] at hm
      simp [exceptIsErr] at hm

/-! ### Claim theorems -/

/-- C1 counterexample: on the query of the claim, with two `key_id`
occurrences (`aa`, `bb`), the rewriter emits only the first occurrence; the
output is the literal shown and in particular contains no `key_id=bb`
parameter, refuting the claim that every occurrence is appended. -/
theorem c1_counterexample :
    (processLine [] "http://host/video.mpd?x=1&key_id=aa&foo=1&key_id=bb&key=cc\n"
        "http://proxy" none).1 =
      "http://proxy/proxy/mpd/manifest.m3u8?d=http%3A%2F%2Fhost%2Fvideo.mpd%3Fx%3D1%26foo%3D1&key_id=aa&key=cc\n" ∧
    pyContains
      "http://proxy/proxy/mpd/manifest.m3u8?d=http%3A%2F%2Fhost%2Fvideo.mpd%3Fx%3D1%26foo%3D1&key_id=aa&key=cc\n"
      "key_id=bb" = false :=
  ⟨rfl, by decide⟩

/-- C1 (amended): for a playable DASH entry the rewriter extracts only the
first occurrence of `key_id` and of `key`, appends each as its own
(unencoded) query parameter on the proxy URL, and removes every `key_id`
and `key` occurrence from the inner encoded URL: the claim query
`x=1&key_id=aa&foo=1&key_id=bb&key=cc` yields exactly one `key_id`
parameter (`aa`) and one `key` parameter (`cc`), and for every grouped
query dictionary the cleaned parameter set contains neither DRM key. -/
theorem c1_theorem :
    processLine [] "http://host/video.mpd?x=1&key_id=aa&foo=1&key_id=bb&key=cc\n"
        "http://proxy" none =
      ("http://proxy/proxy/mpd/manifest.m3u8?d=http%3A%2F%2Fhost%2Fvideo.mpd%3Fx%3D1%26foo%3D1&key_id=aa&key=cc\n",
       []) ∧
    ∀ qp : List (String × List String),
      (cleanDrm qp).all (fun kv => !(kv.1 == "key_id" || kv.1 == "key")) = true :=
  ⟨rfl, fun qp => filter_all_self _ qp⟩

/-- C2 counterexample: when the only source fails, the combined output is
exactly its error comment line — no marker line appears at all, refuting
both the marker-exactly-once invariant and the synthetic marker fallback. -/
theorem c2_counterexample :
    async_generate_combined_playlist [("http://s", .error "boom")] "B" none =
      ["# ERROR processing playlist http://s: boom\n"] ∧
    isExtm3uB "# ERROR processing playlist http://s: boom\n" = false :=
  ⟨rfl, by decide⟩

/-- C2 (amended): when every source fails, the combined output is exactly
one error comment line per source, in request order, and no synthetic
marker line is emitted. -/
theorem c2_theorem (rs : List (String × Except String (List String))) (b : String)
    (pw : Option String) (h : ∀ r ∈ rs, exceptIsErr r.2 = true) :
    async_generate_combined_playlist rs b pw = rs.map errLine :=
  combineGo_all_err b pw rs false h

/-- C2 witness: the all-fail theorem applied to two concrete failing
sources. -/
theorem c2_witness :
    async_generate_combined_playlist
      [("http://s1", .error "boom"), ("http://s2", .error "down")] "B" none =
      ["# ERROR processing playlist http://s1: boom\n",
       "# ERROR processing playlist http://s2: down\n"] := by
  have h := c2_theorem [("http://s1", .error "boom"), ("http://s2", .error "down")] "B" none
    (by decide)
  rw [h]
  rfl

/-- C3 counterexample: a pluto.tv line with a configured api_password is
not emitted unmodified — the password parameter is appended to it. -/
theorem c3_counterexample :
    (processLine [] "http://x.pluto.tv/live.m3u8\n" "http://proxy" (some "pw")).1 =
      "http://x.pluto.tv/live.m3u8&api_password=pw\n" ∧
    "http://x.pluto.tv/live.m3u8&api_password=pw\n" ≠ "http://x.pluto.tv/live.m3u8\n" :=
  ⟨rfl, by decide⟩

/-- C3 (amended): a playable line containing the pluto.tv marker bypasses
every proxy route — the URL itself is kept verbatim and unencoded — but the
common playable tail still runs: pending header parameters and the
api_password are appended and the pending header dictionary is consumed. -/
theorem c3_theorem (st : List (String × String)) (u b : String) (pw : Option String)
    (h1 : isPlayableLineB (pyStrip (rstripNl u)) = true)
    (h2 : pyContains (pyStrip (rstripNl u)) "pluto.tv" = true) :
    processLine st u b pw = finishPlayable (pyStrip (rstripNl u)) st pw := by
  have hh : pyStartswith (pyStrip (rstripNl u)) "#" = false := by
    cases hhash : pyStartswith (pyStrip (rstripNl u)) "#" with
    | false => rfl
    | true => simp [isPlayableLineB, hhash] at h1
  obtain ⟨hv, he⟩ := no_hash_no_tags _ hh
  simp [processLine, hv, he, h1, routeFor, h2]

/-- C3 witness: the pluto theorem applied to a concrete line with a pending
header and a password. -/
theorem c3_witness :
    processLine [("A", "1")] "http://x.pluto.tv/a\n" "B" (some "pw") =
      ("http://x.pluto.tv/a&h_A=1&api_password=pw\n", []) := by
  have h := c3_theorem [("A", "1")] "http://x.pluto.tv/a\n" "B" (some "pw")
    (by decide) (by decide)
  rw [h]
  rfl

/-- C4: the base-URL override of proxy_handler is dead code.  The outer
guard requires the first definition part not to start with http while the
inner guard requires its colon-prefix — an initial segment of the same
string — to start with http, which is impossible; so the extraction always
returns the request-derived default, also on the docstring example
`https://mfp.com:pass123&http://provider.com/playlist.m3u`. -/
theorem c4_theorem :
    extractBaseUrl ["https://mfp.com:pass123&http://provider.com/playlist.m3u"]
      "http://req.host" = "http://req.host" ∧
    ∀ (defs : List String) (dflt : String), extractBaseUrl defs dflt = dflt := by
  constructor
  · rfl
  · intro defs dflt
    cases defs with
    | nil => rfl
    | cons d0 rest =>
      by_cases hAmp : pyContains d0 "&" = true
      · by_cases hc : (pyContains (String.mk (splitOnceChar '&' d0.data).1) ":" &&
            !pyStartswith (String.mk (splitOnceChar '&' d0.data).1) "http") = true
        · have hp0 : pyStartswith (String.mk (splitOnceChar '&' d0.data).1) "http" = false := by
            simp [Bool.and_eq_true, Bool.not_eq_true'] at hc
            exact hc.2
          have hbup : pyStartswith
              (String.mk (rsplitOnceChar ':' (String.mk (splitOnceChar '&' d0.data).1).data).1)
              "http" = false := by
            cases hb : pyStartswith
                (String.mk (rsplitOnceChar ':' (String.mk (splitOnceChar '&' d0.data).1).data).1)
                "http" with
            | false => rfl
            | true =>
              exfalso
              obtain ⟨t, htail⟩ :=
                rsplit_fst_initial ':' (String.mk (splitOnceChar '&' d0.data).1).data
              have hb2 : "http".data.isPrefixOf
                  (rsplitOnceChar ':' (String.mk (splitOnceChar '&' d0.data).1).data).1 = true := hb
              have hext := isPrefixOf_ext _ _ t hb2
              rw [htail] at hext
              have hp0' : "http".data.isPrefixOf
                  (String.mk (splitOnceChar '&' d0.data).1).data = false := hp0
              rw [hp0'] at hext
              exact Bool.false_ne_true hext
          simp [extractBaseUrl, hAmp, hc, hbup]
        · simp [extractBaseUrl, hAmp, hc]
      · simp [extractBaseUrl, hAmp]

/-- C5 counterexample: a malformed VLC-option directive (payload without an
equals sign) is emitted verbatim but leaves the pending header dictionary
untouched, and the previously accumulated header is still attached to the
next playable entry — there is no reset to empty. -/
theorem c5_counterexample :
    rewriteLines [("A", "1")] ["#EXTVLCOPT:badpayload\n", "http://h/x.m3u8\n"] "B" none =
      ["#EXTVLCOPT:badpayload\n",
       "B/proxy/hls/manifest.m3u8?d=http%3A%2F%2Fh%2Fx.m3u8&h_A=1\n"] ∧
    (processLine [("A", "1")] "#EXTVLCOPT:badpayload\n" "B" none).2 ≠ [] :=
  ⟨rfl, by decide⟩

/-- C5 (amended): a VLC-option directive whose payload has no equals sign
is emitted verbatim and leaves the pending header dictionary unchanged;
only the JSON-header directive resets on parse failure. -/
theorem c5_theorem (st : List (String × String)) (u b : String) (pw : Option String)
    (h1 : pyStartswith (pyStrip (rstripNl u)) "#EXTVLCOPT:" = true)
    (h2 : listHasSub ['='] ((splitOnceChar ':' (pyStrip (rstripNl u)).data).2.getD []) = false) :
    processLine st u b pw = (u, st) := by
  simp [processLine, h1, vlcUpdate, h2]

/-- C5 witness: the malformed VLC directive theorem applied to a concrete
line with a pending header. -/
theorem c5_witness :
    processLine [("A", "1")] "#EXTVLCOPT:badpayload\n" "B" none =
      ("#EXTVLCOPT:badpayload\n", [("A", "1")]) :=
  c5_theorem [("A", "1")] "#EXTVLCOPT:badpayload\n" "B" none (by decide) (by decide)

/-- C6 counterexample: the fetcher enforces no byte budget at all — for
every candidate budget there is a larger transport payload that still
yields a full success, refuting the claimed oversize abort. -/
theorem c6_counterexample :
    ¬ ∃ budget : Nat, ∀ (url : String) (ls : List String),
      budget < sumBytes ls →
        fetchIsOk (async_download_m3u_playlist url (.ok ls)) = false := by
  rintro ⟨budget, h⟩
  have hsize : budget < sumBytes [String.mk (List.replicate (budget + 1) 'a')] := by
    simp [sumBytes, String.length]
  have hx := h "u" [String.mk (List.replicate (budget + 1) 'a')] hsize
  simp [async_download_m3u_playlist, fetchIsOk] at hx

/-- C6 (amended): the fetcher is all-or-nothing and distinguishes connect
errors from other failures, but has no oversize budget: transport success
of any size returns the complete decoded line sequence, a connect error
maps to the distinct 502 error built by the source, and every other
exception (timeouts included) is re-raised unchanged. -/
theorem c6_theorem (url m : String) (ls : List String) :
    async_download_m3u_playlist url (.ok ls) = .ok (ls.map decodeLine) ∧
    async_download_m3u_playlist url (.connectError m) =
      .error (.httpError 502
        ("Unable to connect to playlist source (DNS or network issue): " ++ url)) ∧
    async_download_m3u_playlist url (.otherError m) = .error (.propagated m) ∧
    FetchError.httpError 502
        ("Unable to connect to playlist source (DNS or network issue): " ++ url) ≠
      FetchError.propagated m :=
  ⟨rfl, rfl, rfl, by intro h; exact FetchError.noConfusion h⟩

/-- C7: a JSON-header directive replaces the whole pending header
dictionary whatever it contained before, a VLC-option http-header directive
upserts into it, so the two directives in sequence leave both headers
pending. -/
theorem c7_theorem (st : List (String × String)) (b : String) (pw : Option String) :
    processLine st "#EXTHTTP:\x7b\"A\":\"1\"\x7d\n" b pw =
      ("#EXTHTTP:\x7b\"A\":\"1\"\x7d\n", [("A", "1")]) ∧
    processLine [("A", "1")] "#EXTVLCOPT:http-header=B: 2\n" b pw =
      ("#EXTVLCOPT:http-header=B: 2\n", [("A", "1"), ("B", "2")]) ∧
    (processLine ((processLine st "#EXTHTTP:\x7b\"A\":\"1\"\x7d\n" b pw).2)
        "#EXTVLCOPT:http-header=B: 2\n" b pw).2 = [("A", "1"), ("B", "2")] :=
  ⟨rfl, rfl, rfl⟩

/-- C8: headers are consumed one-shot — after any playable line the pending
header dictionary is empty, so the next line is processed exactly as with
an empty dictionary. -/
theorem c8_theorem (st : List (String × String)) (u b : String) (pw : Option String)
    (h : isPlayableLineB (pyStrip (rstripNl u)) = true) :
    (processLine st u b pw).2 = [] ∧
    ∀ u2, processLine (processLine st u b pw).2 u2 b pw = processLine [] u2 b pw := by
  have hh : pyStartswith (pyStrip (rstripNl u)) "#" = false := by
    cases hhash : pyStartswith (pyStrip (rstripNl u)) "#" with
    | false => rfl
    | true => simp [isPlayableLineB, hhash] at h
  obtain ⟨hv, he⟩ := no_hash_no_tags _ hh
  have hfst : (processLine st u b pw).2 = [] := by
    simp [processLine, hv, he, h, finishPlayable_snd]
  exact ⟨hfst, fun u2 => by rw [hfst]⟩

/-- C8 witness: the one-shot theorem applied to two consecutive concrete
playable entries after one directive block. -/
theorem c8_witness :
    (processLine [("A", "1")] "http://h/x.m3u8\n" "B" none).2 = [] ∧
    processLine ((processLine [("A", "1")] "http://h/x.m3u8\n" "B" none).2)
        "http://h/y.m3u8\n" "B" none =
      processLine [] "http://h/y.m3u8\n" "B" none := by
  have h := c8_theorem [("A", "1")] "http://h/x.m3u8\n" "B" none (by decide)
  exact ⟨h.1, h.2 "http://h/y.m3u8\n"⟩

/-- C9 counterexample: for the DASH entry `http://h/v.mpd?foo=&key_id=k`
the decoded inner URL is `http://h/v.mpd` — the blank-valued original query
parameter foo is dropped by the query reconstruction, so percent-decoding
the d parameter does not return the original source URL with its non-DRM
parameters. -/
theorem c9_counterexample :
    (processLine [] "http://h/v.mpd?foo=&key_id=k\n" "B" none).1 =
      "B/proxy/mpd/manifest.m3u8?d=http%3A%2F%2Fh%2Fv.mpd&key_id=k\n" ∧
    utf8Decode (percentDecodeChars "http%3A%2F%2Fh%2Fv.mpd".data) = "http://h/v.mpd" ∧
    pyContains "http://h/v.mpd" "foo" = false :=
  ⟨rfl, rfl, by decide⟩

/-- C9 (amended): for playable entries routed to the HLS manifest proxy
(the `.m3u8` route), the d parameter is the percent-encoding of the
original line and percent-decoding it recovers the original source URL
byte-exactly; the DASH route instead re-encodes a reconstructed query that
can drop blank-valued parameters. -/
theorem c9_theorem (st : List (String × String)) (u b : String) (pw : Option String)
    (h1 : isPlayableLineB (pyStrip (rstripNl u)) = true)
    (h2 : pyContains (pyStrip (rstripNl u)) "pluto.tv" = false)
    (h3 : pyContains (pyStrip (rstripNl u)) "vavoo.to" = false)
    (h4 : pyContains (pyStrip (rstripNl u)) "vixsrc.to" = false)
    (h5 : pyContains (pyStrip (rstripNl u)) ".m3u8" = true) :
    processLine st u b pw =
      finishPlayable
        (b ++ "/proxy/hls/manifest.m3u8?d=" ++ percentEncode [] (pyStrip (rstripNl u))) st pw ∧
    percentDecodeChars (percentEncode [] (pyStrip (rstripNl u))).data =
      strToBytes (pyStrip (rstripNl u)) := by
  have hh : pyStartswith (pyStrip (rstripNl u)) "#" = false := by
    cases hhash : pyStartswith (pyStrip (rstripNl u)) "#" with
    | false => rfl
    | true => simp [isPlayableLineB, hhash] at h1
  obtain ⟨hv, he⟩ := no_hash_no_tags _ hh
  constructor
  · simp [processLine, hv, he, h1, routeFor, h2, h3, h4, h5, hlsRoute]
  · exact percent_round _

/-- C9 witness: the HLS round-trip theorem applied to a concrete entry. -/
theorem c9_witness :
    processLine [] "http://h/x.m3u8\n" "B" none =
      ("B/proxy/hls/manifest.m3u8?d=http%3A%2F%2Fh%2Fx.m3u8\n", []) ∧
    percentDecodeChars "http%3A%2F%2Fh%2Fx.m3u8".data = strToBytes "http://h/x.m3u8" := by
  have h := c9_theorem [] "http://h/x.m3u8\n" "B" none
    (by decide) (by decide) (by decide) (by decide) (by decide)
  constructor
  · rw [h.1]; rfl
  · exact h.2

/-- C10: a line that is neither directive nor playable is passed through
with the pending header dictionary untouched, byte-identical including its
original line terminator. -/
theorem c10_theorem (st : List (String × String)) (u b : String) (pw : Option String)
    (h1 : pyStartswith (pyStrip (rstripNl u)) "#EXTVLCOPT:" = false)
    (h2 : pyStartswith (pyStrip (rstripNl u)) "#EXTHTTP:" = false)
    (h3 : isPlayableLineB (pyStrip (rstripNl u)) = false) :
    processLine st u b pw = (u, st) := by
  simp [processLine, h1, h2, h3]

/-- C10 witness: the pass-through theorem applied to a comment line with a
carriage-return line terminator and a pending header. -/
theorem c10_witness :
    processLine [("A", "1")] "# some comment\r\n" "B" (some "pw") =
      ("# some comment\r\n", [("A", "1")]) :=
  c10_theorem [("A", "1")] "# some comment\r\n" "B" (some "pw")
    (by decide) (by decide) (by decide)
